import Mathlib

/-!
Verification of the efcp repository (DTP / DTCP / EFCP stacked transport).

Shallow embedding of the Rust sources:
- src/dtcp/src/lib.rs        (DtcpChannel::recv, send path)
- src/dtcp/src/packet.rs     (DtcpPacket header format)
- src/dtcp/src/retransmission.rs (Retransmission, Transmission)
- src/dtp/src/dtp.rs         (InnerDtpSocket: poll_recv, poll_incoming, close)
- src/dtp/src/packet.rs      (DtpPacket)
- src/efcp/src/secure.rs     (DiscoPacket, DiscoChannel)
- src/efcp/src/negotiation.rs (Negotiation)
- src/efcp/src/packet.rs     (HandshakePacket)

Machine integers are modelled as Nat with explicit `% 2 ^ w` where wrapping
matters; Rust slice indexing that can panic is modelled with Option; fallible
operations return Option.
-/

namespace Efcp

/-! ## DTCP receive-side state machine (src/dtcp/src/lib.rs) -/

/-- Type of PDU, from `DtcpType` in src/dtcp/src/packet.rs: a Transfer PDU
carries the data-run flag, a Control PDU is a pure ack. -/
inductive DtcpType where
  | transfer (drf : Bool)
  | control
deriving DecidableEq

/-- A parsed DTCP header as `DtcpChannel::recv` sees it after
`DtcpPacket::parse`: the type byte and the big-endian u16 sequence number. -/
structure DtcpHdr where
  ty : DtcpType
  seq_num : Nat
deriving DecidableEq

/-- One in-flight transmission as seen through the retransmission queue of
src/dtcp/src/retransmission.rs: its u16 sequence number and the shared
`acked` cell of the `Transmission`. -/
structure TxEntry where
  seq_num : Nat
  acked : Bool
deriving DecidableEq

/-- Model of `Retransmission::ack` (retransmission.rs lines 105-113).
`queue.retain` traverses the queue in order; an entry with
`seq_num <= k` has `tx.ack()` called on it (setting the shared `acked`
flag) and is removed, any other entry is retained unchanged. Returns the
retained queue together with the removed entries after marking. -/
def Retransmission.ackRun : List TxEntry → Nat → List TxEntry × List TxEntry
  | [], _ => ([], [])
  | e :: q, k =>
    let r := Retransmission.ackRun q k
    if e.seq_num ≤ k then (r.1, { e with acked := true } :: r.2)
    else (e :: r.1, r.2)

/-- Receive-side state of a `DtcpChannel` (src/dtcp/src/lib.rs): the
`last_ack` cursor and the retransmission queue guarded by the `tx` mutex. -/
structure DtcpState where
  last_ack : Nat
  tx_queue : List TxEntry
deriving DecidableEq

/-- Result of processing one parsed packet inside the `DtcpChannel::recv`
loop: the updated state, the Control acks sent (in order, before any
delivery), the packet delivered to the caller (none means the loop
continues with the next packet), and the transmissions removed from the
queue with their `acked` flag set. -/
structure RecvResult where
  state : DtcpState
  acks_sent : List Nat
  delivered : Option DtcpHdr
  acked_tx : List TxEntry
deriving DecidableEq

/-- One iteration of the `DtcpChannel::recv` loop (src/dtcp/src/lib.rs lines
201-225) on an already-parsed packet:
- `Transfer{drf=true}`: `last_ack.store(seq_num)`, send an ack, deliver;
- `Transfer{drf=false}`: if `seq_num == last_ack + 1` (u16 addition, hence
  mod 2^16), `last_ack.fetch_max(seq_num)`, send an ack, deliver; else fall
  through and continue the loop with nothing changed;
- `Control`: `Retransmission::ack(seq_num)` under the `tx` lock, then
  continue the loop. -/
def DtcpChannel.recvStep (s : DtcpState) (p : DtcpHdr) : RecvResult :=
  match p.ty with
  | .transfer drf =>
    if drf then
      ⟨{ s with last_ack := p.seq_num }, [p.seq_num], some p, []⟩
    else if p.seq_num = (s.last_ack + 1) % 65536 then
      ⟨{ s with last_ack := max s.last_ack p.seq_num }, [p.seq_num], some p, []⟩
    else
      ⟨s, [], none, []⟩
  | .control =>
    let r := Retransmission.ackRun s.tx_queue p.seq_num
    ⟨{ s with tx_queue := r.1 }, [], none, r.2⟩

/-! ## DTCP retransmission budget (src/dtcp/src/retransmission.rs) -/

/-- Reduce an integer into the two's-complement range of Rust's `i8`
(`[-128, 127]`), the type of the `tx_left` counter. -/
def wrap8 (x : Int) : Int := (x + 128) % 256 - 128

/-- State of one cooperative `Transmission` task: the `tx_left` i8 budget
counter, the `acked` flag, the channel-global `timedout` flag it shares
with its parent `Retransmission`, and a ghost counter of how many times
the packet bytes were actually handed to the underlying sender. -/
structure TxTask where
  tx_left : Int
  acked : Bool
  timedout : Bool
  sends : Nat
deriving DecidableEq

/-- Model of `Transmission::send` (retransmission.rs lines 23-32):
`tx_left.fetch_sub(1)` returns the old value; if it was positive the packet
is sent, otherwise the shared `timedout` flag is stored true. The counter
itself always decrements (wrapping i8 arithmetic). -/
def Transmission.sendOnce (t : TxTask) : TxTask :=
  if t.tx_left > 0 then
    { t with tx_left := wrap8 (t.tx_left - 1), sends := t.sends + 1 }
  else
    { t with tx_left := wrap8 (t.tx_left - 1), timedout := true }

/-- Model of the retry loop of `Transmission::send_all` (lines 36-50): stop
as soon as `acked` or `timedout` holds, otherwise wait out the
retransmission interval (elided: a `Delay` iteration changes no state) and
send again. The fuel argument bounds how many loop iterations are
observed. -/
def Transmission.sendAllLoop : Nat → TxTask → TxTask
  | 0, t => t
  | k + 1, t =>
    if t.acked ∨ t.timedout then t
    else Transmission.sendAllLoop k (Transmission.sendOnce t)

/-- Model of `Transmission::send_all` (lines 34-51): one unconditional send
followed by the retry loop. -/
def Transmission.sendAllRun (fuel : Nat) (t : TxTask) : TxTask :=
  Transmission.sendAllLoop fuel (Transmission.sendOnce t)

/-- Channel-global retransmission state (retransmission.rs lines 68-74):
the queue of in-flight transmissions, the shared `timedout` flag, and the
configured `max_rtx` (a u8). -/
structure Retransmission where
  queue : List TxEntry
  timedout : Bool
  max_rtx : Nat
deriving DecidableEq

/-- Outcome of `Retransmission::send`: either the `TimedOut`
("transmission failed") error — returned before anything is enqueued or
transmitted — or the updated queue together with the freshly spawned
transmission task. -/
inductive SendResult where
  | timedOutErr
  | ok (r : Retransmission) (t : TxTask)
deriving DecidableEq

/-- Model of `Retransmission::send` (retransmission.rs lines 87-103): if the
channel-global `timedout` flag is set, fail with the `TimedOut` error and
change nothing; otherwise enqueue a fresh unacked transmission whose
budget is `self.max_rtx as i8 + 1` (the cast and the addition both wrap in
i8) and spawn its `send_all` task. -/
def Retransmission.send (r : Retransmission) (seq_num : Nat) : SendResult :=
  if r.timedout then .timedOutErr
  else
    .ok { r with queue := r.queue ++ [⟨seq_num, false⟩] }
      { tx_left := wrap8 (wrap8 (r.max_rtx % 256 : Nat) + 1)
        acked := false
        timedout := false
        sends := 0 }

/-! ## DTP socket connection table (src/dtp/src/dtp.rs) -/

/-- A DTP channel key: the peer address (abstracted to a Nat identifier)
and the one-byte channel id. -/
structure ChKey where
  peer : Nat
  channel_id : Nat
deriving DecidableEq

/-- Look up a channel key in the `channel_lookup` map (modelled as an
association list). -/
def lookupKey : List (ChKey × Nat) → ChKey → Option Nat
  | [], _ => none
  | (k2, v) :: t, k => if k2 = k then some v else lookupKey t k

/-- Look up a connection slot by its slab index. -/
def lookupSlot : List (Nat × List (List Nat)) → Nat → Option (List (List Nat))
  | [], _ => none
  | (i, q) :: t, id => if i = id then some q else lookupSlot t id

/-- The `InnerDtpSocket` connection table (src/dtp/src/dtp.rs lines 19-26):
`connections` is the slab of per-channel receive FIFOs (each packet is its
raw datagram bytes), `channel_lookup` maps keys to slab indices,
`channels` is the set of keys the application owns (`opened`), `incoming`
is the bounded FIFO of keys pending acceptance. -/
structure DtpState where
  connections : List (Nat × List (List Nat))
  channel_lookup : List (ChKey × Nat)
  channels : List ChKey
  incoming : List ChKey
  max_conns : Nat
  rx_buf_len : Nat
deriving DecidableEq

/-- A fresh slab index for an insertion (one past the largest used index;
the exact vacant-index policy of `Slab` is irrelevant to the claims). -/
def freshSlot (conns : List (Nat × List (List Nat))) : Nat :=
  conns.foldr (fun e m => max (e.1 + 1) m) 0

/-- Model of `InnerDtpSocket::connection_id` (dtp.rs lines 41-56): return
the key's slot index if present, otherwise lazily insert a fresh slot when
the slab has room (`conns.len() < conns.capacity()`), else return None. -/
def InnerDtpSocket.connection_id (s : DtpState) (k : ChKey) : Option Nat × DtpState :=
  match lookupKey s.channel_lookup k with
  | some id => (some id, s)
  | none =>
    if s.connections.length < s.max_conns then
      let id := freshSlot s.connections
      (some id,
        { s with
            connections := s.connections ++ [(id, [])]
            channel_lookup := s.channel_lookup ++ [(k, id)] })
    else (none, s)

/-- Push a packet onto the FIFO of a slot. -/
def pushSlot (conns : List (Nat × List (List Nat))) (id : Nat) (pkt : List Nat) :
    List (Nat × List (List Nat)) :=
  conns.map fun e => if e.1 = id then (e.1, e.2 ++ [pkt]) else e

/-- Outcome of one `InnerDtpSocket::poll_recv` on a ready datagram: a normal
return, a receive error (zero-length datagram fails `packet.check()`), or a
panic (the `self.incoming.push(..).unwrap()` at dtp.rs line 106 fails when
the bounded incoming queue is full). -/
inductive RecvOut where
  | ok (s : DtpState)
  | errOut (s : DtpState)
  | panicOut
deriving DecidableEq

/-- Model of `InnerDtpSocket::poll_recv` (dtp.rs lines 70-111) applied to
one datagram `(peer, bytes)` delivered by the UDP socket: validate the
packet (at least the one-byte channel-id header), form the key, look up or
lazily insert its slot, push the packet into the slot's FIFO unless that
FIFO is full (silent drop), and if the key is not in `channels` (opened)
push it onto `incoming`, unwrapping the result. -/
def InnerDtpSocket.poll_recv (s : DtpState) (peer : Nat) (bytes : List Nat) : RecvOut :=
  if bytes.length < 1 then .errOut s
  else
    let k : ChKey := ⟨peer, bytes.getD 0 0⟩
    match InnerDtpSocket.connection_id s k with
    | (none, s1) => .ok s1
    | (some id, s1) =>
      let q := (lookupSlot s1.connections id).getD []
      let s2 :=
        if q.length < s1.rx_buf_len then
          { s1 with connections := pushSlot s1.connections id bytes }
        else s1
      if s2.channels.contains k then .ok s2
      else if s2.incoming.length < s2.max_conns then
        .ok { s2 with incoming := s2.incoming ++ [k] }
      else .panicOut

/-- Outcome of `InnerDtpSocket::poll_incoming`: a yielded channel key, a
pending return (datagram supply exhausted), an error, or a panic
propagated from `poll_recv`. -/
inductive IncOut where
  | ready (k : ChKey) (s : DtpState)
  | pend (s : DtpState)
  | errOut (s : DtpState)
  | panicOut
deriving DecidableEq

/-- The receive loop of `InnerDtpSocket::poll_incoming` (dtp.rs lines
117-130): drive `poll_recv` once per available datagram; after each
successful receive, pop `incoming` and, when the popped key is not yet in
`channels`, insert it and yield it (a popped key already in `channels` is
discarded). -/
def pollIncomingLoop : DtpState → List (Nat × List Nat) → IncOut
  | s, [] => .pend s
  | s, d :: rest =>
    match InnerDtpSocket.poll_recv s d.1 d.2 with
    | .errOut s1 => .errOut s1
    | .panicOut => .panicOut
    | .ok s1 =>
      match s1.incoming with
      | [] => pollIncomingLoop s1 rest
      | k :: irest =>
        let s2 := { s1 with incoming := irest }
        if s2.channels.contains k then pollIncomingLoop s2 rest
        else .ready k { s2 with channels := s2.channels ++ [k] }

/-- Model of `InnerDtpSocket::poll_incoming` (dtp.rs lines 113-131): the
fast path (lines 114-116) pops `incoming` and returns the key directly —
without touching `channels` — and only when the queue is empty does the
receive loop run over the pending datagrams. -/
def InnerDtpSocket.poll_incoming (s : DtpState) (dgrams : List (Nat × List Nat)) : IncOut :=
  match s.incoming with
  | k :: rest => .ready k { s with incoming := rest }
  | [] => pollIncomingLoop s dgrams

/-- Model of `InnerDtpSocket::outgoing` (dtp.rs lines 157-168): claim a key;
fail (None) if it is already in `channels`, otherwise insert it. -/
def InnerDtpSocket.outgoing (s : DtpState) (peer : Nat) (channel_id : Nat) :
    Option (ChKey × DtpState) :=
  let k : ChKey := ⟨peer, channel_id⟩
  if s.channels.contains k then none
  else some (k, { s with channels := s.channels ++ [k] })

/-- Model of `InnerDtpSocket::close` (dtp.rs lines 170-176): remove the key
from `channels`, then call `connection_id(channel).unwrap()` — which
lazily inserts a slot when the key has none, and panics (None here) when
the key has no slot and the slab is full — and finally remove the lookup
entry and the slot. -/
def InnerDtpSocket.close (s : DtpState) (k : ChKey) : Option DtpState :=
  let s1 := { s with channels := s.channels.filter (fun c => decide (c ≠ k)) }
  match InnerDtpSocket.connection_id s1 k with
  | (none, _) => none
  | (some id, s2) =>
    some
      { s2 with
          channel_lookup := s2.channel_lookup.filter (fun e => decide (e.1 ≠ k))
          connections := s2.connections.filter (fun e => decide (e.1 ≠ id)) }

/-! ## Byte-level packet layering
(src/dtp/src/packet.rs, src/dtcp/src/packet.rs, src/efcp/src/secure.rs) -/

/-- Model of `BytesMut`: the reserved capacity and the bytes written so far.
Only written bytes are visible through slicing; `put` appends. -/
structure BytesM where
  cap : Nat
  data : List Nat
deriving DecidableEq

/-- Append bytes (the `BufMut::put` family). -/
def BytesM.put (b : BytesM) (l : List Nat) : BytesM :=
  { b with data := b.data ++ l }

/-- The DTP packet of src/dtp/src/packet.rs: an ECN bit and the buffer whose
first byte is the channel id. -/
structure DtpPacket where
  ecn : Bool
  bytes : BytesM
deriving DecidableEq

/-- `DtpPacket::new(payload_len)` (packet.rs lines 21-26): reserve
`payload_len + 1` bytes and write the one-byte channel header (0). -/
def DtpPacket.new (payload_len : Nat) : DtpPacket :=
  ⟨false, ⟨payload_len + 1, [0]⟩⟩

/-- `DtpPacket::check` (packet.rs lines 28-33): the buffer must hold at
least the one-byte header. -/
def DtpPacket.check (p : DtpPacket) : Bool :=
  decide (1 ≤ p.bytes.data.length)

/-- `DtpPacket::payload`: the bytes after the one-byte header. -/
def DtpPacket.payload (p : DtpPacket) : List Nat :=
  p.bytes.data.drop 1

/-- Append payload bytes through the `BufMut` impl. -/
def DtpPacket.put (p : DtpPacket) (l : List Nat) : DtpPacket :=
  { p with bytes := p.bytes.put l }

/-- The `From<&[u8]>` constructor: `new(payload.len())` then `put(payload)`. -/
def DtpPacket.fromBytes (l : List Nat) : DtpPacket :=
  (DtpPacket.new l.length).put l

/-- The DTCP packet of src/dtcp/src/packet.rs, wrapping a DTP packet whose
payload starts with the 3-byte DTCP header. -/
structure DtcpPacket where
  inner : DtpPacket
deriving DecidableEq

/-- `DtcpPacket::new(payload_len)` (dtcp packet.rs lines 28-33):
`Packet::new(payload_len + 3)`, then `put_u8(0)` and `put_u16_be(0)`. -/
def DtcpPacket.new (payload_len : Nat) : DtcpPacket :=
  ⟨(DtpPacket.new (payload_len + 3)).put [0, 0, 0]⟩

/-- `DtcpPacket::parse` (dtcp packet.rs lines 36-45): require at least the
3-byte header in the DTP payload and a raw type (high nibble of byte 0)
below 2. -/
def DtcpPacket.parse (p : DtpPacket) : Option DtcpPacket :=
  if 3 ≤ p.payload.length ∧ p.payload.getD 0 0 >>> 4 < 2 then some ⟨p⟩ else none

/-- `DtcpPacket::into_packet`. -/
def DtcpPacket.into_packet (p : DtcpPacket) : DtpPacket :=
  p.inner

/-- `DtcpPacket::payload`: the bytes after the 3-byte DTCP header. -/
def DtcpPacket.payload (p : DtcpPacket) : List Nat :=
  p.inner.payload.drop 3

/-- The `From<&[u8]>` constructor for DTCP packets. -/
def DtcpPacket.fromBytes (l : List Nat) : DtcpPacket :=
  ⟨(DtcpPacket.new l.length).inner.put l⟩

/-- `disco::TAG_LEN`, the AEAD authentication tag length of the disco
crate. -/
def TAG_LEN : Nat := 16

/-- The disco packet of src/efcp/src/secure.rs, `DiscoPacket<P>`
instantiated (as in the EFCP channel stack) at the DTP packet: the inner
payload starts with an 8-byte nonce followed by the TAG_LEN-byte tag. -/
structure DiscoPacket where
  inner : DtpPacket
deriving DecidableEq

/-- `DiscoPacket::new(payload_len)` (secure.rs lines 13-18):
`P::new(payload_len + 8 + TAG_LEN)`, then a zero nonce and a zero tag. -/
def DiscoPacket.new (payload_len : Nat) : DiscoPacket :=
  ⟨((DtpPacket.new (payload_len + 8 + TAG_LEN)).put (List.replicate 8 0)).put
      (List.replicate TAG_LEN 0)⟩

/-- `DiscoPacket::check` (secure.rs lines 20-25): the inner payload must
hold at least 8 bytes — although the disco header occupies
`8 + TAG_LEN` bytes. -/
def DiscoPacket.check (p : DiscoPacket) : Bool :=
  decide (8 ≤ p.inner.payload.length)

/-- `DiscoPacket::parse` (via `derive_packet!`): wrap the lower packet and
run `check`. -/
def DiscoPacket.parse (q : DtpPacket) : Option DiscoPacket :=
  if DiscoPacket.check ⟨q⟩ then some ⟨q⟩ else none

/-- `DiscoPacket::into_packet`. -/
def DiscoPacket.into_packet (p : DiscoPacket) : DtpPacket :=
  p.inner

/-- `DiscoPacket::payload`: the bytes after the nonce and tag. -/
def DiscoPacket.payload (p : DiscoPacket) : List Nat :=
  p.inner.payload.drop (8 + TAG_LEN)

/-- The `From<&[u8]>` constructor for disco packets. -/
def DiscoPacket.fromBytes (l : List Nat) : DiscoPacket :=
  ⟨(DiscoPacket.new l.length).inner.put l⟩

/-- `DiscoPacket::tag` (secure.rs lines 52-56) copies
`inner.payload()[8..8 + TAG_LEN]`; Rust panics when the range exceeds the
slice, modelled as None. -/
def DiscoPacket.tag (p : DiscoPacket) : Option (List Nat) :=
  if 8 + TAG_LEN ≤ p.inner.payload.length then
    some ((p.inner.payload.drop 8).take TAG_LEN)
  else none

/-- Big-endian byte-list to Nat (the `read_u64` of the nonce field). -/
def bytesBE (l : List Nat) : Nat :=
  l.foldl (fun acc b => acc * 256 + b) 0

/-- Outcome of `DiscoChannel::recv` (secure.rs lines 91-99) up to the AEAD
call: a parse error, a panic while extracting the tag, or the parsed
packet with its nonce and tag. -/
inductive DiscoRecv where
  | parseErr
  | panicked
  | got (p : DiscoPacket) (nonce : Nat) (tag : List Nat)
deriving DecidableEq

/-- Model of the header-handling part of `DiscoChannel::recv`: parse the
received lower packet, then read nonce and tag; the out-of-bounds slice in
`DiscoPacket::tag` is a panic, not an error return. -/
def DiscoChannel.recvAttempt (q : DtpPacket) : DiscoRecv :=
  match DiscoPacket.parse q with
  | none => .parseErr
  | some p =>
    match DiscoPacket.tag p with
    | none => .panicked
    | some t => .got p (bytesBE (p.inner.payload.take 8)) t

/-! ## Protocol negotiation (src/efcp/src/negotiation.rs) -/

/-- The negotiation `Message` type of src/efcp/src/negotiation.rs. -/
inductive NMessage where
  | propose (protocol : String)
  | accept (protocol : String)
  | fail
deriving DecidableEq

/-- The `Negotiation` state machine (negotiation.rs lines 14-21). -/
structure Negotiation where
  protocols : List String
  tried : Nat
  started : Bool
  proposed : Option String
  accepted : Option String
  finished : Bool
deriving DecidableEq

/-- `Negotiation::new`. -/
def Negotiation.new (protocols : List String) : Negotiation :=
  ⟨protocols, 0, false, none, none, false⟩

/-- `Negotiation::supported`: membership in the local protocol list. -/
def Negotiation.supported (n : Negotiation) (p : String) : Bool :=
  n.protocols.contains p

/-- `Negotiation::propose` (negotiation.rs lines 39-49): take the protocol
at index `tried` (incrementing `tried`); when the list is exhausted the
machine is finished and replies `Fail`. -/
def Negotiation.propose (n : Negotiation) : NMessage × Negotiation :=
  let i := n.tried
  let n1 := { n with tried := i + 1 }
  match n1.protocols.get? i with
  | some pr => (.propose pr, { n1 with proposed := some pr })
  | none => (.fail, { n1 with finished := true })

/-- `Negotiation::message` (negotiation.rs lines 57-87). None models
`Err(ProtocolError)`; otherwise the optional reply and the next state are
returned. Receiving `Propose` when a protocol has already been accepted is
a protocol error. -/
def Negotiation.message (n : Negotiation) (msg : NMessage) :
    Option (Option NMessage × Negotiation) :=
  let n0 := { n with started := true }
  match msg with
  | .propose p =>
    if n0.accepted.isSome then none
    else if n0.supported p then
      some (some (.accept p), { n0 with accepted := some p, finished := true })
    else
      let r := n0.propose
      some (some r.1, r.2)
  | .accept p =>
    if n0.supported p then
      some (none, { n0 with accepted := some p, finished := true })
    else none
  | .fail => some (none, { n0 with finished := true })

/-! ## Handshake packet serialization (src/efcp/src/packet.rs) -/

/-- A UTF-8 validity checker for byte lists, modelling the success
condition of `core::str::from_utf8` (RFC 3629 well-formedness). -/
def isCont (c : Nat) : Bool := decide (128 ≤ c ∧ c ≤ 191)

/-- Validity of a byte list as UTF-8 (the check `str::from_utf8`
performs). -/
def utf8Valid : List Nat → Bool
  | [] => true
  | b :: rest =>
    if b ≤ 127 then utf8Valid rest
    else
      match rest with
      | [] => false
      | c1 :: r1 =>
        if 194 ≤ b ∧ b ≤ 223 then isCont c1 && utf8Valid r1
        else
          match r1 with
          | [] => false
          | c2 :: r2 =>
            if b = 224 then decide (160 ≤ c1 ∧ c1 ≤ 191) && isCont c2 && utf8Valid r2
            else if (225 ≤ b ∧ b ≤ 236) ∨ b = 238 ∨ b = 239 then
              isCont c1 && isCont c2 && utf8Valid r2
            else if b = 237 then decide (128 ≤ c1 ∧ c1 ≤ 159) && isCont c2 && utf8Valid r2
            else
              match r2 with
              | [] => false
              | c3 :: r3 =>
                if b = 240 then
                  decide (144 ≤ c1 ∧ c1 ≤ 191) && isCont c2 && isCont c3 && utf8Valid r3
                else if 241 ≤ b ∧ b ≤ 243 then
                  isCont c1 && isCont c2 && isCont c3 && utf8Valid r3
                else if b = 244 then
                  decide (128 ≤ c1 ∧ c1 ≤ 143) && isCont c2 && isCont c3 && utf8Valid r3
                else false

/-- The negotiation message variants carried by a handshake packet
(`Message` as used by src/efcp/src/packet.rs: `Propose(str)`, `Accept`,
`Fail`); the proposed protocol is its UTF-8 byte string. -/
inductive HsMessage where
  | propose (protocol : List Nat)
  | accept
  | fail
deriving DecidableEq

/-- The external-address codec: `SocketAddr::to_string` (display) and
`str::parse::<SocketAddr>` (parse). These live in the Rust standard
library, outside this repository; the round-trip theorem takes their
documented laws as hypotheses. -/
structure AddrCodec (A : Type) where
  display : A → List Nat
  parse : List Nat → Option A

/-- `HandshakePacket` (src/efcp/src/packet.rs lines 5-9). -/
structure HandshakePacket (A : Type) where
  negotiate : Option HsMessage
  external_addr : Option A
deriving DecidableEq

/-- `HandshakePacket::to_bytes` (packet.rs lines 81-113): a type byte whose
low nibble encodes the negotiation variant (0 none, 1 Propose, 2 Accept,
3 Fail), a length-prefixed protocol for Propose, then — when an external
address is present — its length-prefixed display form, with the high
nibble of byte 0 set to 0xF. A length above 255 is an error (None). -/
def HandshakePacket.to_bytes {A : Type} (c : AddrCodec A) (p : HandshakePacket A) :
    Option (List Nat) :=
  let base : Option (List Nat) :=
    match p.negotiate with
    | none => some [0]
    | some (.propose pr) =>
      if pr.length > 255 then none else some (1 :: pr.length :: pr)
    | some .accept => some [2]
    | some .fail => some [3]
  match base, p.external_addr with
  | none, _ => none
  | some bs, none => some bs
  | some bs, some a =>
    let str := c.display a
    if str.length > 255 then none
    else
      match bs with
      | [] => none
      | b0 :: btl => some ((b0 ||| 240) :: (btl ++ str.length :: str))

/-- Read one length-prefixed UTF-8 string, the pattern `from_bytes` uses
twice (packet.rs lines 34-44 for the protocol and 52-61 for the address):
a length byte, a bounds check `bytes.len() < i + len`, and the
`str::from_utf8` validity check. Returns the string and the remaining
bytes. -/
def readLenPrefixed : List Nat → Option (List Nat × List Nat)
  | [] => none
  | len :: r =>
    if r.length < len then none
    else if utf8Valid (r.take len) then some (r.take len, r.drop len)
    else none

/-- `HandshakePacket::from_bytes` (packet.rs lines 23-71): read the type
byte; decode the low nibble into the negotiation variant (reading a
length-prefixed UTF-8 protocol for Propose); when the high nibble is
nonzero read a length-prefixed UTF-8 address string and parse it.
Trailing bytes are ignored, exactly as in the source. -/
def HandshakePacket.from_bytes {A : Type} (c : AddrCodec A) :
    List Nat → Option (HandshakePacket A)
  | [] => none
  | ty :: rest =>
    let negPart : Option (Option HsMessage × List Nat) :=
      if ty &&& 15 = 0 then some (none, rest)
      else if ty &&& 15 = 1 then
        (readLenPrefixed rest).map fun q => (some (.propose q.1), q.2)
      else if ty &&& 15 = 2 then some (some .accept, rest)
      else if ty &&& 15 = 3 then some (some .fail, rest)
      else none
    match negPart with
    | none => none
    | some (neg, r2) =>
      if ty >>> 4 > 0 then
        match readLenPrefixed r2 with
        | none => none
        | some (str, _) =>
          match c.parse str with
          | some a => some ⟨neg, some a⟩
          | none => none
      else some ⟨neg, none⟩

/-- A concrete one-point address codec used to witness the round-trip
theorem (its display form is the single byte "1"). -/
def unitCodec : AddrCodec Unit :=
  ⟨fun _ => [49], fun l => if l = [49] then some () else none⟩

/-! ## Helper lemmas -/

/-- Retain-with-side-effect computes the two filters: the kept queue is
exactly the entries above the ack cursor, untouched and in order; the
removed entries are exactly those at or below it, each with `acked` set. -/
theorem ackRun_eq (q : List TxEntry) (k : Nat) :
    Retransmission.ackRun q k =
      (q.filter fun e => decide (k < e.seq_num),
        (q.filter fun e => decide (e.seq_num ≤ k)).map fun e => { e with acked := true }) := by
  induction q with
  | nil => rfl
  | cons e q ih =>
    by_cases h : e.seq_num ≤ k
    · simp [Retransmission.ackRun, List.filter_cons, ih, h, Nat.not_lt.mpr h]
    · simp [Retransmission.ackRun, List.filter_cons, ih, h, Nat.lt_of_not_le h]

/-- Wrapping into the i8 range never increases a value that is at least
the range minimum. -/
theorem wrap8_le {y : Int} (h : -128 ≤ y) : wrap8 y ≤ y := by
  unfold wrap8; omega

/-- The i8 range of `wrap8`. -/
theorem wrap8_range (y : Int) : -128 ≤ wrap8 y ∧ wrap8 y ≤ 127 := by
  unfold wrap8; omega

/-- A task whose shared `timedout` flag is set never re-enters the retry
loop. -/
theorem sendAllLoop_stopped (k : Nat) (t : TxTask) (h : t.timedout = true) :
    Transmission.sendAllLoop k t = t := by
  cases k <;> simp [Transmission.sendAllLoop, h]

/-- The retry loop sends at most `tx_left.toNat` more times. -/
theorem sendAllLoop_sends_le (k : Nat) (t : TxTask) :
    (Transmission.sendAllLoop k t).sends ≤ t.sends + t.tx_left.toNat := by
  induction k generalizing t with
  | zero => simp [Transmission.sendAllLoop]
  | succ k ih =>
    by_cases hstop : t.acked ∨ t.timedout
    · simp [Transmission.sendAllLoop, hstop]
    · simp only [Transmission.sendAllLoop, if_neg hstop]
      by_cases hpos : t.tx_left > 0
      · have hw : wrap8 (t.tx_left - 1) ≤ t.tx_left - 1 := wrap8_le (by omega)
        have h2 := ih (Transmission.sendOnce t)
        simp only [Transmission.sendOnce, if_pos hpos] at h2 ⊢
        omega
      · have hflag : (Transmission.sendOnce t).timedout = true := by
          simp [Transmission.sendOnce, if_neg hpos]
        rw [sendAllLoop_stopped k _ hflag]
        simp [Transmission.sendOnce, if_neg hpos]

/-- With enough fuel, an unacked task exhausts its budget and sets the
shared `timedout` flag. -/
theorem sendAllLoop_exhaust (k : Nat) (t : TxTask) (ha : t.acked = false)
    (h1 : t.tx_left < (k : Int)) (h2 : 0 < k) :
    (Transmission.sendAllLoop k t).timedout = true := by
  induction k generalizing t with
  | zero => omega
  | succ k ih =>
    by_cases hto : t.timedout = true
    · rw [sendAllLoop_stopped _ _ hto]; exact hto
    · have hstop : ¬ (t.acked ∨ t.timedout) := by simp [ha, hto]
      simp only [Transmission.sendAllLoop, if_neg hstop]
      by_cases hpos : t.tx_left > 0
      · have hw : wrap8 (t.tx_left - 1) ≤ t.tx_left - 1 := wrap8_le (by omega)
        apply ih
        · simp [Transmission.sendOnce, if_pos hpos, ha]
        · simp only [Transmission.sendOnce, if_pos hpos]
          push_cast at h1 ⊢
          omega
        · omega
      · have hflag : (Transmission.sendOnce t).timedout = true := by
          simp [Transmission.sendOnce, if_neg hpos]
        rw [sendAllLoop_stopped k _ hflag]; exact hflag

/-- Unfolding `Transmission::send` when budget remains. -/
theorem sendOnce_eq_pos (t : TxTask) (h : t.tx_left > 0) :
    Transmission.sendOnce t
      = { t with tx_left := wrap8 (t.tx_left - 1), sends := t.sends + 1 } := by
  unfold Transmission.sendOnce
  rw [if_pos h]

/-- Unfolding `Transmission::send` when the budget is exhausted. -/
theorem sendOnce_eq_neg (t : TxTask) (h : ¬ t.tx_left > 0) :
    Transmission.sendOnce t
      = { t with tx_left := wrap8 (t.tx_left - 1), timedout := true } := by
  unfold Transmission.sendOnce
  rw [if_neg h]

/-! ## Claim theorems -/

/-- C1 (counterexample). The claim states that a `drf=false` Transfer is
delivered only when its `seq_num` equals `last_ack + 1` and that on
delivery `last_ack` is advanced to that `seq_num`. At `last_ack = 65535`
the code compares against the wrapped u16 sum `(65535 + 1) mod 2^16 = 0`,
so a Transfer with `seq_num = 0` is delivered even though `0 ≠ 65535 + 1`,
and `fetch_max` leaves `last_ack` at 65535 instead of advancing it to the
delivered `seq_num`. -/
theorem dtcp_recv_in_order_delivery_counterexample :
    (DtcpChannel.recvStep ⟨65535, []⟩ ⟨.transfer false, 0⟩).delivered
      = some ⟨.transfer false, 0⟩
    ∧ (0 : Nat) ≠ 65535 + 1
    ∧ (DtcpChannel.recvStep ⟨65535, []⟩ ⟨.transfer false, 0⟩).state.last_ack ≠ 0 := by
  refine ⟨rfl, by decide, by decide⟩

/-- C1 (amended). One iteration of `DtcpChannel::recv` on a Transfer with
`drf=false`: the packet is delivered iff its `seq_num` equals
`(last_ack + 1) mod 2^16`; in that case `last_ack` becomes
`max last_ack seq_num` (equal to `seq_num` except at the u16 wrap) and a
Control ack carrying the received `seq_num` is sent before delivery; any
other such Transfer (duplicate or gap) is dropped silently with no state
change, no ack, and the loop continues. -/
theorem dtcp_recv_in_order_delivery (s : DtcpState) (p : DtcpHdr)
    (hty : p.ty = .transfer false)
    (hs : s.last_ack < 65536) (hp : p.seq_num < 65536) :
    ((DtcpChannel.recvStep s p).delivered = some p
        ↔ p.seq_num = (s.last_ack + 1) % 65536)
    ∧ (p.seq_num = (s.last_ack + 1) % 65536 →
        DtcpChannel.recvStep s p
          = ⟨⟨max s.last_ack p.seq_num, s.tx_queue⟩, [p.seq_num], some p, []⟩)
    ∧ (p.seq_num ≠ (s.last_ack + 1) % 65536 →
        DtcpChannel.recvStep s p = ⟨s, [], none, []⟩) := by
  by_cases h : p.seq_num = (s.last_ack + 1) % 65536 <;>
    simp [DtcpChannel.recvStep, hty, h]

/-- C1 (witness). The amended theorem at the concrete state
`last_ack = 7` receiving the in-order Transfer `seq_num = 8`. -/
theorem dtcp_recv_in_order_delivery_witness :
    ((DtcpChannel.recvStep ⟨7, []⟩ ⟨.transfer false, 8⟩).delivered
        = some ⟨.transfer false, 8⟩
      ↔ (8 : Nat) = (7 + 1) % 65536)
    ∧ ((8 : Nat) = (7 + 1) % 65536 →
        DtcpChannel.recvStep ⟨7, []⟩ ⟨.transfer false, 8⟩
          = ⟨⟨max 7 8, []⟩, [8], some ⟨.transfer false, 8⟩, []⟩)
    ∧ ((8 : Nat) ≠ (7 + 1) % 65536 →
        DtcpChannel.recvStep ⟨7, []⟩ ⟨.transfer false, 8⟩ = ⟨⟨7, []⟩, [], none, []⟩) :=
  dtcp_recv_in_order_delivery ⟨7, []⟩ ⟨.transfer false, 8⟩ rfl (by decide) (by decide)

/-- C2. Processing a Control packet with sequence number K inside the
`DtcpChannel::recv` loop removes exactly the in-flight transmissions with
`seq_num ≤ K` from the retransmission queue, marking each one acked,
before any further packet is received (the step completes before the loop
continues); every queued transmission with `seq_num > K` remains in the
queue unchanged and in order, and nothing is delivered or acked on the
wire. -/
theorem dtcp_control_cumulative_ack (s : DtcpState) (p : DtcpHdr)
    (hty : p.ty = .control) :
    (DtcpChannel.recvStep s p).state.tx_queue
        = s.tx_queue.filter (fun e => decide (p.seq_num < e.seq_num))
    ∧ (DtcpChannel.recvStep s p).acked_tx
        = (s.tx_queue.filter fun e => decide (e.seq_num ≤ p.seq_num)).map
            (fun e => { e with acked := true })
    ∧ (∀ e, e ∈ (DtcpChannel.recvStep s p).acked_tx → e.acked = true)
    ∧ (DtcpChannel.recvStep s p).state.last_ack = s.last_ack
    ∧ (DtcpChannel.recvStep s p).delivered = none
    ∧ (DtcpChannel.recvStep s p).acks_sent = [] := by
  refine ⟨?_, ?_, ?_, ?_, ?_, ?_⟩
  · simp [DtcpChannel.recvStep, hty, ackRun_eq]
  · simp [DtcpChannel.recvStep, hty, ackRun_eq]
  · intro e he
    simp only [DtcpChannel.recvStep, hty, ackRun_eq, List.mem_map] at he
    obtain ⟨e2, -, he2⟩ := he
    rw [← he2]
  · simp [DtcpChannel.recvStep, hty]
  · simp [DtcpChannel.recvStep, hty]
  · simp [DtcpChannel.recvStep, hty]

/-- C2 (witness). The cumulative-ack theorem at the concrete queue
`[3, 5, 9]` receiving a Control packet with K = 5. -/
theorem dtcp_control_cumulative_ack_witness :
    (DtcpChannel.recvStep ⟨0, [⟨3, false⟩, ⟨5, false⟩, ⟨9, false⟩]⟩
        ⟨.control, 5⟩).state.tx_queue
      = ([⟨3, false⟩, ⟨5, false⟩, ⟨9, false⟩] : List TxEntry).filter
          (fun e => decide (5 < e.seq_num))
    ∧ (DtcpChannel.recvStep ⟨0, [⟨3, false⟩, ⟨5, false⟩, ⟨9, false⟩]⟩
        ⟨.control, 5⟩).acked_tx
      = (([⟨3, false⟩, ⟨5, false⟩, ⟨9, false⟩] : List TxEntry).filter
          fun e => decide (e.seq_num ≤ 5)).map (fun e => { e with acked := true })
    ∧ (∀ e, e ∈ (DtcpChannel.recvStep ⟨0, [⟨3, false⟩, ⟨5, false⟩, ⟨9, false⟩]⟩
        ⟨.control, 5⟩).acked_tx → e.acked = true)
    ∧ (DtcpChannel.recvStep ⟨0, [⟨3, false⟩, ⟨5, false⟩, ⟨9, false⟩]⟩
        ⟨.control, 5⟩).state.last_ack = 0
    ∧ (DtcpChannel.recvStep ⟨0, [⟨3, false⟩, ⟨5, false⟩, ⟨9, false⟩]⟩
        ⟨.control, 5⟩).delivered = none
    ∧ (DtcpChannel.recvStep ⟨0, [⟨3, false⟩, ⟨5, false⟩, ⟨9, false⟩]⟩
        ⟨.control, 5⟩).acks_sent = [] :=
  dtcp_control_cumulative_ack ⟨0, [⟨3, false⟩, ⟨5, false⟩, ⟨9, false⟩]⟩ ⟨.control, 5⟩ rfl

/-- C3. A Transfer with `drf=true` is delivered unconditionally, whatever
the current `last_ack` and whatever its `seq_num`; `last_ack` is stored
(re-anchored, not maxed) to the received `seq_num`, and a Control ack for
that `seq_num` is sent before delivery. The retransmission queue is
untouched. -/
theorem dtcp_drf_reanchor (s : DtcpState) (p : DtcpHdr)
    (hty : p.ty = .transfer true) :
    DtcpChannel.recvStep s p = ⟨⟨p.seq_num, s.tx_queue⟩, [p.seq_num], some p, []⟩ := by
  simp [DtcpChannel.recvStep, hty]

/-- C3 (witness). The DRF re-anchor theorem at `last_ack = 100` receiving
a `drf=true` Transfer with the out-of-run `seq_num = 3`. -/
theorem dtcp_drf_reanchor_witness :
    DtcpChannel.recvStep ⟨100, [⟨7, false⟩]⟩ ⟨.transfer true, 3⟩
      = ⟨⟨3, [⟨7, false⟩]⟩, [3], some ⟨.transfer true, 3⟩, []⟩ :=
  dtcp_drf_reanchor ⟨100, [⟨7, false⟩]⟩ ⟨.transfer true, 3⟩ rfl

/-- C4. The retransmission budget and channel poisoning: a freshly enqueued
transmission is handed to the sender at most `1 + max_rtx` times however
long its task runs; once the budget is exhausted (observable whenever the
task runs long enough without an ack) the channel-global `timedout` flag
is stored; `Retransmission::send` on a channel whose flag is set returns
the TimedOut ("transmission failed") error without enqueueing or sending
anything; and nothing ever clears the flag — a poisoned task stays
stopped and poisoned. -/
theorem dtcp_retransmission_budget_poisoning
    (r r3 : Retransmission) (sn sn3 fuel k : Nat) (r2 : Retransmission) (t t2 : TxTask)
    (hok : Retransmission.send r sn = SendResult.ok r2 t) :
    (Transmission.sendAllRun fuel t).sends ≤ 1 + r.max_rtx
    ∧ (r.max_rtx + 1 ≤ fuel → (Transmission.sendAllRun fuel t).timedout = true)
    ∧ (r3.timedout = true → Retransmission.send r3 sn3 = SendResult.timedOutErr)
    ∧ (t2.timedout = true →
        (Transmission.sendOnce t2).timedout = true
        ∧ Transmission.sendAllLoop k t2 = t2) := by
  have hrt : r.timedout = false := by
    by_contra hc
    rw [Bool.not_eq_false] at hc
    simp [Retransmission.send, hc] at hok
  have ht : t = ⟨wrap8 (wrap8 (r.max_rtx % 256 : Nat) + 1), false, false, 0⟩ := by
    simp [Retransmission.send, hrt] at hok
    exact hok.2.symm
  have hb1 : wrap8 (r.max_rtx % 256 : Nat) ≤ (r.max_rtx : Int) := by
    calc wrap8 (r.max_rtx % 256 : Nat) ≤ ((r.max_rtx % 256 : Nat) : Int) :=
          wrap8_le (by omega)
      _ ≤ (r.max_rtx : Int) := by
          have := Nat.mod_le r.max_rtx 256
          exact_mod_cast this
  have hb2 : t.tx_left ≤ (r.max_rtx : Int) + 1 := by
    rw [ht]
    exact le_trans (wrap8_le (by have := (wrap8_range (r.max_rtx % 256 : Nat)).1; omega))
      (by omega)
  have hacked : t.acked = false := by rw [ht]
  have hsends : t.sends = 0 := by rw [ht]
  refine ⟨?_, ?_, ?_, ?_⟩
  · -- at most 1 + max_rtx transmissions
    unfold Transmission.sendAllRun
    by_cases hpos : t.tx_left > 0
    · have hw : wrap8 (t.tx_left - 1) ≤ t.tx_left - 1 := wrap8_le (by omega)
      rw [sendOnce_eq_pos t hpos]
      have hloop := sendAllLoop_sends_le fuel
        { t with tx_left := wrap8 (t.tx_left - 1), sends := t.sends + 1 }
      simp only at hloop
      omega
    · rw [sendOnce_eq_neg t hpos, sendAllLoop_stopped fuel _ rfl]
      simp only
      omega
  · -- exhaustion sets the channel-global flag
    intro hfuel
    unfold Transmission.sendAllRun
    by_cases hpos : t.tx_left > 0
    · have hw : wrap8 (t.tx_left - 1) ≤ t.tx_left - 1 := wrap8_le (by omega)
      rw [sendOnce_eq_pos t hpos]
      apply sendAllLoop_exhaust
      · exact hacked
      · simp only
        have hfi : (r.max_rtx : Int) + 1 ≤ (fuel : Int) := by exact_mod_cast hfuel
        omega
      · omega
    · rw [sendOnce_eq_neg t hpos, sendAllLoop_stopped fuel _ rfl]
  · intro h3
    simp [Retransmission.send, h3]
  · intro h4
    refine ⟨?_, sendAllLoop_stopped k t2 h4⟩
    unfold Transmission.sendOnce
    split <;> simp [h4]

/-- C4 (witness). The budget theorem applied to a fresh channel with
`max_rtx = 2` sending sequence number 5 (budget 3), observed for 4 loop
iterations, with a poisoned channel and a poisoned task alongside. -/
theorem dtcp_retransmission_budget_poisoning_witness :
    (Transmission.sendAllRun 4 ⟨3, false, false, 0⟩).sends ≤ 1 + 2
    ∧ (2 + 1 ≤ 4 → (Transmission.sendAllRun 4 ⟨3, false, false, 0⟩).timedout = true)
    ∧ ((⟨[], true, 2⟩ : Retransmission).timedout = true →
        Retransmission.send ⟨[], true, 2⟩ 9 = SendResult.timedOutErr)
    ∧ ((⟨0, false, true, 0⟩ : TxTask).timedout = true →
        (Transmission.sendOnce ⟨0, false, true, 0⟩).timedout = true
        ∧ Transmission.sendAllLoop 3 ⟨0, false, true, 0⟩ = ⟨0, false, true, 0⟩) :=
  dtcp_retransmission_budget_poisoning ⟨[], false, 2⟩ ⟨[], true, 2⟩ 5 9 4 3
    ⟨[⟨5, false⟩], false, 2⟩ ⟨3, false, false, 0⟩ ⟨0, false, true, 0⟩ (by decide)

/-- C5. On a freshly bound socket (two connection slots, FIFO depth 8),
two datagrams from peer 7 on channel id 5 — the same not-yet-opened key —
make `poll_recv` enqueue the key `(7, 5)` into `incoming` twice; the fast
path of `poll_incoming` then yields that key on two consecutive calls
(never inserting it into the opened set), and a third datagram on the
same key hits the `incoming.push(..).unwrap()` with the queue full and
panics — contradicting the claimed at-most-once/exactly-once invariant. -/
theorem dtp_incoming_duplicate_key :
    InnerDtpSocket.poll_recv ⟨[], [], [], [], 2, 8⟩ 7 [5]
      = .ok ⟨[(0, [[5]])], [(⟨7, 5⟩, 0)], [], [⟨7, 5⟩], 2, 8⟩
    ∧ InnerDtpSocket.poll_recv ⟨[(0, [[5]])], [(⟨7, 5⟩, 0)], [], [⟨7, 5⟩], 2, 8⟩ 7 [5]
      = .ok ⟨[(0, [[5], [5]])], [(⟨7, 5⟩, 0)], [], [⟨7, 5⟩, ⟨7, 5⟩], 2, 8⟩
    ∧ ([⟨7, 5⟩, ⟨7, 5⟩] : List ChKey).count ⟨7, 5⟩ = 2
    ∧ InnerDtpSocket.poll_incoming
        ⟨[(0, [[5], [5]])], [(⟨7, 5⟩, 0)], [], [⟨7, 5⟩, ⟨7, 5⟩], 2, 8⟩ []
      = .ready ⟨7, 5⟩ ⟨[(0, [[5], [5]])], [(⟨7, 5⟩, 0)], [], [⟨7, 5⟩], 2, 8⟩
    ∧ InnerDtpSocket.poll_incoming
        ⟨[(0, [[5], [5]])], [(⟨7, 5⟩, 0)], [], [⟨7, 5⟩], 2, 8⟩ []
      = .ready ⟨7, 5⟩ ⟨[(0, [[5], [5]])], [(⟨7, 5⟩, 0)], [], [], 2, 8⟩
    ∧ InnerDtpSocket.poll_recv
        ⟨[(0, [[5], [5]])], [(⟨7, 5⟩, 0)], [], [⟨7, 5⟩, ⟨7, 5⟩], 2, 8⟩ 7 [5]
      = .panicOut := by
  decide

/-- C7. Closing a DTP channel whose key has no slot while the connection
slab is full: `close` first removes the key from `channels`, then calls
`connection_id(channel).unwrap()`; `connection_id` finds no slot, cannot
lazily insert one (slab full), returns None, and the unwrap panics —
whereas the claim (and spec note 6) requires close to remove the key and
slot unconditionally without lazy insertion. Concretely: bind with one
slot, claim key (1,0) via `outgoing` (no slot yet), receive a datagram
from peer 2 on channel 0 (fills the only slot), then close (1,0). -/
theorem dtp_close_unwrap_panics :
    InnerDtpSocket.outgoing ⟨[], [], [], [], 1, 1⟩ 1 0
      = some (⟨1, 0⟩, ⟨[], [], [⟨1, 0⟩], [], 1, 1⟩)
    ∧ InnerDtpSocket.poll_recv ⟨[], [], [⟨1, 0⟩], [], 1, 1⟩ 2 [0]
      = .ok ⟨[(0, [[0]])], [(⟨2, 0⟩, 0)], [⟨1, 0⟩], [⟨2, 0⟩], 1, 1⟩
    ∧ InnerDtpSocket.close ⟨[(0, [[0]])], [(⟨2, 0⟩, 0)], [⟨1, 0⟩], [⟨2, 0⟩], 1, 1⟩ ⟨1, 0⟩
      = none := by
  decide

/-- C6 (counterexample). The claim states that the payload of the packet
returned by `new(n)` is a slice of length exactly n. In the source,
`new` only writes the header bytes into the `BytesMut` buffer (reserving
capacity for the payload), so immediately after `new(n)` the payload
slice is empty at every layer; at n = 1 its length is 0, not 1. -/
theorem packet_layer_roundtrip_counterexample :
    (DtpPacket.new 1).payload.length = 0
    ∧ ¬ (DtpPacket.new 1).payload.length = 1
    ∧ (DtcpPacket.new 1).payload.length = 0
    ∧ (DiscoPacket.new 1).payload.length = 0 := by
  decide

/-- C6 (amended). For every payload length n and every n-byte payload:
validation/parse of the lower-layer form of `new(n)` succeeds at each of
the three layers (DTP check, DTCP parse, Disco parse); `new(n)` reserves
capacity for exactly its headers plus n payload bytes but its payload is
initially empty; and once the n payload bytes are appended (as the
`From<&[u8]>` constructor does) the payload is a slice of length exactly
n, with parse of the lower-layer form still succeeding. -/
theorem packet_layer_roundtrip (n : Nat) (bs : List Nat) (h : bs.length = n) :
    DtpPacket.check (DtpPacket.new n) = true
    ∧ (DtpPacket.new n).bytes.cap = n + 1
    ∧ (DtpPacket.new n).payload = []
    ∧ (DtpPacket.fromBytes bs).payload = bs
    ∧ DtpPacket.check (DtpPacket.fromBytes bs) = true
    ∧ DtcpPacket.parse ((DtcpPacket.new n).into_packet) = some (DtcpPacket.new n)
    ∧ (DtcpPacket.new n).inner.bytes.cap = n + 4
    ∧ (DtcpPacket.new n).payload = []
    ∧ (DtcpPacket.fromBytes bs).payload = bs
    ∧ DtcpPacket.parse ((DtcpPacket.fromBytes bs).into_packet)
        = some (DtcpPacket.fromBytes bs)
    ∧ DiscoPacket.parse ((DiscoPacket.new n).into_packet) = some (DiscoPacket.new n)
    ∧ (DiscoPacket.new n).inner.bytes.cap = n + 25
    ∧ (DiscoPacket.new n).payload = []
    ∧ (DiscoPacket.fromBytes bs).payload = bs
    ∧ DiscoPacket.parse ((DiscoPacket.fromBytes bs).into_packet)
        = some (DiscoPacket.fromBytes bs) := by
  have hpp : (DtcpPacket.new n).into_packet.payload = [0, 0, 0] := by
    simp [DtcpPacket.into_packet, DtcpPacket.new, DtpPacket.new, DtpPacket.put, BytesM.put,
      DtpPacket.payload]
  have hfb : (DtcpPacket.fromBytes bs).into_packet.payload = 0 :: 0 :: 0 :: bs := by
    simp [DtcpPacket.fromBytes, DtcpPacket.into_packet, DtcpPacket.new, DtpPacket.new,
      DtpPacket.put, BytesM.put, DtpPacket.payload]
  have hdp : (DiscoPacket.new n).into_packet.payload
      = List.replicate 8 0 ++ List.replicate TAG_LEN 0 := by
    simp [DiscoPacket.into_packet, DiscoPacket.new, DtpPacket.new, DtpPacket.put, BytesM.put,
      DtpPacket.payload]
  have hdb : (DiscoPacket.fromBytes bs).into_packet.payload
      = (List.replicate 8 0 ++ List.replicate TAG_LEN 0) ++ bs := by
    simp [DiscoPacket.fromBytes, DiscoPacket.into_packet, DiscoPacket.new, DtpPacket.new,
      DtpPacket.put, BytesM.put, DtpPacket.payload]
  refine ⟨rfl, rfl, rfl, rfl, ?_, ?_, ?_, rfl, ?_, ?_, ?_, ?_, ?_, ?_, ?_⟩
  · have hd : (DtpPacket.fromBytes bs).bytes.data = 0 :: bs := by
      simp [DtpPacket.fromBytes, DtpPacket.new, DtpPacket.put, BytesM.put]
    rw [DtpPacket.check, hd]
    simp
  · rw [DtcpPacket.parse, hpp, if_pos (by decide)]
    rfl
  · show n + 3 + 1 = n + 4
    omega
  · show (DtcpPacket.fromBytes bs).inner.payload.drop 3 = bs
    rw [show (DtcpPacket.fromBytes bs).inner = (DtcpPacket.fromBytes bs).into_packet from rfl,
      hfb]
    rfl
  · rw [DtcpPacket.parse, hfb, if_pos (⟨by simp, by simp⟩ :
      3 ≤ (0 :: 0 :: 0 :: bs).length ∧ (0 :: 0 :: 0 :: bs).getD 0 0 >>> 4 < 2)]
    rfl
  · rw [DiscoPacket.parse,
      show DiscoPacket.check ⟨(DiscoPacket.new n).into_packet⟩ = true by
        rw [DiscoPacket.check,
          show (⟨(DiscoPacket.new n).into_packet⟩ : DiscoPacket).inner
            = (DiscoPacket.new n).into_packet from rfl, hdp]
        decide]
    rfl
  · rfl
  · show (DiscoPacket.new n).inner.payload.drop (8 + TAG_LEN) = []
    rw [show (DiscoPacket.new n).inner = (DiscoPacket.new n).into_packet from rfl, hdp]
    decide
  · show (DiscoPacket.fromBytes bs).inner.payload.drop (8 + TAG_LEN) = bs
    rw [show (DiscoPacket.fromBytes bs).inner = (DiscoPacket.fromBytes bs).into_packet from
      rfl, hdb,
      show 8 + TAG_LEN = (List.replicate 8 (0 : Nat) ++ List.replicate TAG_LEN 0).length from
        by decide,
      List.drop_left]
  · rw [DiscoPacket.parse,
      show DiscoPacket.check ⟨(DiscoPacket.fromBytes bs).into_packet⟩ = true by
        rw [DiscoPacket.check,
          show (⟨(DiscoPacket.fromBytes bs).into_packet⟩ : DiscoPacket).inner
            = (DiscoPacket.fromBytes bs).into_packet from rfl, hdb]
        simp]
    rfl

/-- C6 (witness). The amended round-trip at n = 2 with payload bytes
"ab". -/
theorem packet_layer_roundtrip_witness :
    DtpPacket.check (DtpPacket.new 2) = true
    ∧ (DtpPacket.new 2).bytes.cap = 2 + 1
    ∧ (DtpPacket.new 2).payload = []
    ∧ (DtpPacket.fromBytes [97, 98]).payload = [97, 98]
    ∧ DtpPacket.check (DtpPacket.fromBytes [97, 98]) = true
    ∧ DtcpPacket.parse ((DtcpPacket.new 2).into_packet) = some (DtcpPacket.new 2)
    ∧ (DtcpPacket.new 2).inner.bytes.cap = 2 + 4
    ∧ (DtcpPacket.new 2).payload = []
    ∧ (DtcpPacket.fromBytes [97, 98]).payload = [97, 98]
    ∧ DtcpPacket.parse ((DtcpPacket.fromBytes [97, 98]).into_packet)
        = some (DtcpPacket.fromBytes [97, 98])
    ∧ DiscoPacket.parse ((DiscoPacket.new 2).into_packet) = some (DiscoPacket.new 2)
    ∧ (DiscoPacket.new 2).inner.bytes.cap = 2 + 25
    ∧ (DiscoPacket.new 2).payload = []
    ∧ (DiscoPacket.fromBytes [97, 98]).payload = [97, 98]
    ∧ DiscoPacket.parse ((DiscoPacket.fromBytes [97, 98]).into_packet)
        = some (DiscoPacket.fromBytes [97, 98]) :=
  packet_layer_roundtrip 2 [97, 98] rfl

/-- C10. A received lower-layer packet whose disco-level view has an
8-byte payload — inside the range `[8, 8 + TAG_LEN)` — passes
`DiscoPacket::check` (which only requires 8 bytes although the header
occupies `8 + TAG_LEN`), hence `DiscoPacket::parse` succeeds inside
`DiscoChannel::recv`, but extracting the authentication tag slices
`payload[8..8+TAG_LEN]` out of bounds: a panic, not an error return. -/
theorem disco_check_tag_mismatch :
    DiscoPacket.check ⟨DtpPacket.fromBytes (List.replicate 8 0)⟩ = true
    ∧ DiscoPacket.parse (DtpPacket.fromBytes (List.replicate 8 0))
        = some ⟨DtpPacket.fromBytes (List.replicate 8 0)⟩
    ∧ (⟨DtpPacket.fromBytes (List.replicate 8 0)⟩ : DiscoPacket).inner.payload.length = 8
    ∧ 8 < 8 + TAG_LEN
    ∧ DiscoPacket.tag ⟨DtpPacket.fromBytes (List.replicate 8 0)⟩ = none
    ∧ DiscoChannel.recvAttempt (DtpPacket.fromBytes (List.replicate 8 0))
        = .panicked := by
  decide

/-- C8 (counterexample). The claim says a received `Propose(p)` with `p`
not in the local list is answered by proposing the next untried protocol
(or `Fail` when exhausted). But once a protocol has been accepted,
`Negotiation::message` returns `Err(ProtocolError)` for any `Propose`:
after the machine with list `["/a"]` accepts `"/a"`, a further
`Propose("/x")` yields a protocol error, not a `Propose` or `Fail`
reply. -/
theorem negotiation_propose_rules_counterexample :
    Negotiation.message (Negotiation.new ["/a"]) (.propose "/a")
      = some (some (.accept "/a"), ⟨["/a"], 0, true, none, some "/a", true⟩)
    ∧ Negotiation.message ⟨["/a"], 0, true, none, some "/a", true⟩ (.propose "/x")
      = none := by
  decide

/-- C8 (amended). For a `Negotiation` receiving `Propose(p)` when no
protocol has been accepted yet: if `p` is in the local list the machine
replies `Accept`, records `p` as accepted, and is finished; if `p` is not
in the local list it replies with `Propose` of the protocol at index
`tried` of its own list (recording it as proposed), and when the list is
exhausted it replies `Fail` and is finished. (When a protocol has already
been accepted, `Propose` is a protocol error instead.) -/
theorem negotiation_propose_rules (n : Negotiation) (p : String)
    (h : n.accepted = none) :
    (n.supported p = true →
      Negotiation.message n (.propose p)
        = some (some (.accept p),
            { n with started := true, accepted := some p, finished := true }))
    ∧ (n.supported p = false →
      (∀ pr, n.protocols.get? n.tried = some pr →
        Negotiation.message n (.propose p)
          = some (some (.propose pr),
              { n with started := true, tried := n.tried + 1, proposed := some pr }))
      ∧ (n.protocols.get? n.tried = none →
        Negotiation.message n (.propose p)
          = some (some .fail,
              { n with started := true, tried := n.tried + 1, finished := true }))) := by
  refine ⟨?_, ?_⟩
  · intro hsup
    have hmem : p ∈ n.protocols := by
      simpa [Negotiation.supported] using hsup
    simp [Negotiation.message, Negotiation.supported, hmem, h]
  · intro hsup
    have hmem : p ∉ n.protocols := by
      simpa [Negotiation.supported] using hsup
    constructor
    · intro pr hpr
      rw [List.get?_eq_getElem?] at hpr
      simp [Negotiation.message, Negotiation.supported, hmem, h, Negotiation.propose, hpr]
    · intro hpr
      rw [List.get?_eq_getElem?] at hpr
      simp [Negotiation.message, Negotiation.supported, hmem, h, Negotiation.propose, hpr]

/-- C8 (witness). The amended theorem at the machine `new ["/a"]`
receiving `Propose("/a")`, which it supports and accepts. -/
theorem negotiation_propose_rules_witness :
    ((Negotiation.new ["/a"]).supported "/a" = true →
      Negotiation.message (Negotiation.new ["/a"]) (.propose "/a")
        = some (some (.accept "/a"),
            { Negotiation.new ["/a"] with
                started := true, accepted := some "/a", finished := true }))
    ∧ ((Negotiation.new ["/a"]).supported "/a" = false →
      (∀ pr, (Negotiation.new ["/a"]).protocols.get? (Negotiation.new ["/a"]).tried
          = some pr →
        Negotiation.message (Negotiation.new ["/a"]) (.propose "/a")
          = some (some (.propose pr),
              { Negotiation.new ["/a"] with
                  started := true, tried := (Negotiation.new ["/a"]).tried + 1,
                  proposed := some pr }))
      ∧ ((Negotiation.new ["/a"]).protocols.get? (Negotiation.new ["/a"]).tried = none →
        Negotiation.message (Negotiation.new ["/a"]) (.propose "/a")
          = some (some .fail,
              { Negotiation.new ["/a"] with
                  started := true, tried := (Negotiation.new ["/a"]).tried + 1,
                  finished := true }))) :=
  negotiation_propose_rules (Negotiation.new ["/a"]) "/a" rfl

/-- Reading back a length-prefixed valid-UTF-8 string recovers it exactly,
leaving the trailing bytes. -/
theorem readLenPrefixed_exact (x tail : List Nat) (hu : utf8Valid x = true) :
    readLenPrefixed (x.length :: (x ++ tail)) = some (x, tail) := by
  have h1 : ¬ ((x ++ tail).length < x.length) := by
    simp [List.length_append]
  simp only [readLenPrefixed]
  rw [if_neg h1, List.take_left, if_pos hu, List.drop_left]

/-- Reading back a length-prefixed valid-UTF-8 string that ends the
buffer. -/
theorem readLenPrefixed_all (x : List Nat) (hu : utf8Valid x = true) :
    readLenPrefixed (x.length :: x) = some (x, []) := by
  have := readLenPrefixed_exact x [] hu
  rwa [List.append_nil] at this

/-- C9. For every `HandshakePacket` — any combination of negotiate field
(absent, Propose, Accept, Fail) and external-address field (absent or
present) — whose serialization `to_bytes` succeeds, deserializing the
produced bytes with `from_bytes` succeeds and yields the packet back.
The hypotheses record the standard-library facts the source relies on:
`SocketAddr` display strings are valid UTF-8 and re-parse to the same
address, and a Rust `&str` protocol is valid UTF-8. -/
theorem handshake_packet_roundtrip {A : Type} (c : AddrCodec A) (p : HandshakePacket A)
    (bs : List Nat)
    (hdisp : ∀ a, utf8Valid (c.display a) = true)
    (hinv : ∀ a, c.parse (c.display a) = some a)
    (hproto : ∀ pr, p.negotiate = some (.propose pr) → utf8Valid pr = true)
    (henc : HandshakePacket.to_bytes c p = some bs) :
    HandshakePacket.from_bytes c bs = some p := by
  obtain ⟨neg, addr⟩ := p
  cases addr with
  | none =>
    cases neg with
    | none =>
      simp [HandshakePacket.to_bytes] at henc
      subst henc
      rfl
    | some msg =>
      cases msg with
      | propose pr =>
        have hu : utf8Valid pr = true := hproto pr rfl
        by_cases hlen : pr.length > 255
        · simp [HandshakePacket.to_bytes, hlen] at henc
        · simp [HandshakePacket.to_bytes, hlen] at henc
          subst henc
          show HandshakePacket.from_bytes c (1 :: pr.length :: pr) = _
          simp only [HandshakePacket.from_bytes]
          rw [if_neg (by decide), if_pos (by decide), readLenPrefixed_all pr hu]
          rfl
      | accept =>
        simp [HandshakePacket.to_bytes] at henc
        subst henc
        rfl
      | fail =>
        simp [HandshakePacket.to_bytes] at henc
        subst henc
        rfl
  | some a =>
    have hu : utf8Valid (c.display a) = true := hdisp a
    by_cases haddr : (c.display a).length > 255
    · cases neg with
      | none => simp [HandshakePacket.to_bytes, haddr] at henc
      | some msg =>
        cases msg with
        | propose pr =>
          by_cases hlen : pr.length > 255
          · simp [HandshakePacket.to_bytes, hlen] at henc
          · simp [HandshakePacket.to_bytes, hlen, haddr] at henc
        | accept => simp [HandshakePacket.to_bytes, haddr] at henc
        | fail => simp [HandshakePacket.to_bytes, haddr] at henc
    · cases neg with
      | none =>
        simp [HandshakePacket.to_bytes, haddr] at henc
        subst henc
        show HandshakePacket.from_bytes c
          ((0 ||| 240) :: ((c.display a).length :: c.display a)) = _
        rw [show (0 : Nat) ||| 240 = 240 from by decide]
        simp only [HandshakePacket.from_bytes]
        rw [if_pos (by decide)]
        simp [show (240 : Nat) >>> 4 = 15 from by decide,
          show (0 : Nat) < 15 from by decide, readLenPrefixed_all _ hu, hinv a]
      | some msg =>
        cases msg with
        | propose pr =>
          have hup : utf8Valid pr = true := hproto pr rfl
          by_cases hlen : pr.length > 255
          · simp [HandshakePacket.to_bytes, hlen] at henc
          · simp [HandshakePacket.to_bytes, hlen, haddr] at henc
            subst henc
            show HandshakePacket.from_bytes c
              ((1 ||| 240) :: (pr.length :: pr ++ (c.display a).length :: c.display a))
                = _
            rw [show (1 : Nat) ||| 240 = 241 from by decide]
            simp only [HandshakePacket.from_bytes]
            rw [if_neg (by decide), if_pos (by decide)]
            rw [show (pr.length :: pr ++ (c.display a).length :: c.display a)
              = pr.length :: (pr ++ ((c.display a).length :: c.display a)) from rfl]
            rw [readLenPrefixed_exact pr _ hup]
            simp [show (241 : Nat) >>> 4 = 15 from by decide,
              show (0 : Nat) < 15 from by decide, readLenPrefixed_all _ hu, hinv a]
        | accept =>
          simp [HandshakePacket.to_bytes, haddr] at henc
          subst henc
          show HandshakePacket.from_bytes c
            ((2 ||| 240) :: ((c.display a).length :: c.display a)) = _
          rw [show (2 : Nat) ||| 240 = 242 from by decide]
          simp only [HandshakePacket.from_bytes]
          rw [if_neg (by decide), if_neg (by decide), if_pos (by decide)]
          simp [show (242 : Nat) >>> 4 = 15 from by decide,
            show (0 : Nat) < 15 from by decide, readLenPrefixed_all _ hu, hinv a]
        | fail =>
          simp [HandshakePacket.to_bytes, haddr] at henc
          subst henc
          show HandshakePacket.from_bytes c
            ((3 ||| 240) :: ((c.display a).length :: c.display a)) = _
          rw [show (3 : Nat) ||| 240 = 243 from by decide]
          simp only [HandshakePacket.from_bytes]
          rw [if_neg (by decide), if_neg (by decide), if_neg (by decide),
            if_pos (by decide)]
          simp [show (243 : Nat) >>> 4 = 15 from by decide,
            show (0 : Nat) < 15 from by decide, readLenPrefixed_all _ hu, hinv a]

/-- C9 (witness). The round-trip theorem applied with the one-point
address codec to the packet `{negotiate: Propose("/a"), external: yes}`,
whose encoding is `[0xF1, 2, 47, 97, 1, 49]`. -/
theorem handshake_packet_roundtrip_witness :
    HandshakePacket.from_bytes unitCodec [241, 2, 47, 97, 1, 49]
      = some ⟨some (.propose [47, 97]), some ()⟩ :=
  handshake_packet_roundtrip unitCodec ⟨some (.propose [47, 97]), some ()⟩
    [241, 2, 47, 97, 1, 49]
    (fun a => by cases a; decide) (fun a => by cases a; decide)
    (fun pr hpr => by
      simp only [Option.some.injEq, HsMessage.propose.injEq] at hpr
      rw [← hpr]
      decide)
    (by decide)

end Efcp
